import Mathlib

/-!
Shallow embedding of the connection pool, scoped handle, data-service
facade, session and configuration getters of the P2P-TCP-Chat repository
(src/src/database.hpp, src/src/config.hpp and the session header).

Connections are modelled by natural-number identifiers.  The pool state
records the FIFO queue of idle connections (head of the list is the front
of the std::queue) together with the list of connections currently wrapped
by live Connection handles.  Blocking inside Acquire is modelled by an
Option result: none means the caller is still waiting on the condition
variable and the call has not completed.
-/

namespace P2P

/-- Identifier of one pooled pqxx connection object. -/
abbrev ConnId := Nat

/-- State of ConnectionPool (database.hpp, lines 86-144): the queue
connections_ of idle connections plus the notional multiset of connections
checked out into live handles (not a field of the C++ class, but determined
by the history of Acquire and Release calls). -/
structure PoolState where
  idle : List ConnId
  outstanding : List ConnId
deriving Repr, DecidableEq

/-- The ConnectionPool constructor (database.hpp, lines 97-102): eagerly
creates size connections and pushes each into the queue. -/
def PoolState.construct (size : Nat) : PoolState :=
  ⟨List.range size, []⟩

/-- Event on the condition variable emitted by Release: the call
cv_.notify_one() wakes exactly one blocked waiter when one exists. -/
inductive Notify where
  | one
deriving Repr, DecidableEq

/-- ConnectionPool::Acquire (database.hpp, lines 112-121): waits until the
queue is non-empty, then pops the front connection and hands it out.  The
result none models a caller still blocked in cv_.wait. -/
def PoolState.Acquire (s : PoolState) : Option (ConnId × PoolState) :=
  match s.idle with
  | [] => none
  | c :: rest => some (c, ⟨rest, s.outstanding ++ [c]⟩)

/-- ConnectionPool::Release (database.hpp, lines 134-138): pushes the
returned connection at the back of the queue and calls cv_.notify_one(). -/
def PoolState.Release (s : PoolState) (c : ConnId) : PoolState × Notify :=
  (⟨s.idle ++ [c], s.outstanding.erase c⟩, Notify.one)

/-- One completed client operation against the pool: an Acquire that
returned, or the release performed by destroying the handle that wraps
the connection at position i of the outstanding list. -/
inductive PoolOp where
  | acquire
  | release (i : Nat)
deriving Repr, DecidableEq

/-- Effect of one operation on the pool state.  A blocked Acquire (empty
queue) has not completed and leaves the state unchanged; a release index
that names no outstanding handle corresponds to no real handle and is a
no-op. -/
def PoolState.step (s : PoolState) : PoolOp → PoolState
  | PoolOp.acquire =>
    match s.Acquire with
    | none => s
    | some (_, s2) => s2
  | PoolOp.release i =>
    match s.outstanding[i]? with
    | none => s
    | some c => (s.Release c).fst

/-- The pool state after a pool of the given size has served a sequence of
completed operations. -/
def PoolState.run (size : Nat) (ops : List PoolOp) : PoolState :=
  ops.foldl PoolState.step (PoolState.construct size)

/-- Repeatedly acquiring from a state: the sequence of connections handed
out by k consecutive successful Acquire calls (stopping early if the pool
is exhausted). -/
def PoolState.acquireSeq : PoolState → Nat → List ConnId
  | _, 0 => []
  | s, k + 1 =>
    match s.Acquire with
    | none => []
    | some (c, s2) => c :: PoolState.acquireSeq s2 k

lemma step_sum (s : PoolState) (op : PoolOp) :
    (s.step op).idle.length + (s.step op).outstanding.length
      = s.idle.length + s.outstanding.length := by
  cases op with
  | acquire =>
    cases h : s.idle with
    | nil => simp [PoolState.step, PoolState.Acquire, h]
    | cons c rest =>
      simp [PoolState.step, PoolState.Acquire, h]
      omega
  | release i =>
    cases h : s.outstanding[i]? with
    | none => simp [PoolState.step, h]
    | some c =>
      have hmem : c ∈ s.outstanding := List.getElem?_mem h
      have hpos : 0 < s.outstanding.length := List.length_pos.mpr
        (fun he => by simp [he] at hmem)
      simp [PoolState.step, PoolState.Release, h,
        List.length_erase_of_mem hmem]
      omega

lemma foldl_sum (ops : List PoolOp) : ∀ s : PoolState,
    (ops.foldl PoolState.step s).idle.length
        + (ops.foldl PoolState.step s).outstanding.length
      = s.idle.length + s.outstanding.length := by
  induction ops with
  | nil => intro s; rfl
  | cons op ops ih =>
    intro s
    rw [List.foldl_cons, ih, step_sum]

lemma run_sum (size : Nat) (ops : List PoolOp) :
    (PoolState.run size ops).idle.length
        + (PoolState.run size ops).outstanding.length = size := by
  unfold PoolState.run
  rw [foldl_sum]
  simp [PoolState.construct]

lemma acquire_of_ne_nil (idl out : List ConnId) (h : idl ≠ []) :
    (PoolState.mk idl out).Acquire ≠ none := by
  cases idl with
  | nil => exact absurd rfl h
  | cons c rest => simp [PoolState.Acquire]

/-- Claim C1: for every pool constructed with size N and every finite
sequence of completed Acquire and Release operations, the length of the
idle queue plus the number of outstanding handles equals N after each
operation completes. -/
theorem pool_size_invariant (size : Nat) (ops : List PoolOp) :
    (PoolState.run size ops).idle.length
        + (PoolState.run size ops).outstanding.length = size :=
  run_sum size ops

/-- Claim C2: in every reachable state of a pool of size N at most N
handles are outstanding; an Acquire started while N handles are
outstanding does not complete (the queue is empty and cv_.wait blocks)
until a release makes the queue non-empty, after which Acquire completes;
and Acquire never returns a connection while the idle queue is empty. -/
theorem acquire_blocks_until_release (size : Nat) (ops : List PoolOp) :
    (PoolState.run size ops).outstanding.length ≤ size ∧
    ((PoolState.run size ops).outstanding.length = size →
        (PoolState.run size ops).Acquire = none) ∧
    (∀ s : PoolState, s.idle = [] → s.Acquire = none) ∧
    (∀ s : PoolState, ∀ c : ConnId,
        ((s.Release c).fst).Acquire ≠ none) := by
  have hsum := run_sum size ops
  refine ⟨by omega, ?_, ?_, ?_⟩
  · intro hful
    have hidle : (PoolState.run size ops).idle.length = 0 := by omega
    have : (PoolState.run size ops).idle = [] :=
      List.eq_nil_of_length_eq_zero hidle
    simp [PoolState.Acquire, this]
  · intro s hs
    simp [PoolState.Acquire, hs]
  · intro s c
    have : s.idle ++ [c] ≠ [] := by simp
    exact acquire_of_ne_nil (s.idle ++ [c]) (s.outstanding.erase c) this

/-- Witness for C2 at a concrete input: a pool of size one with its single
connection checked out has one outstanding handle and a blocked Acquire. -/
theorem acquire_blocks_until_release_witness :
    (PoolState.run 1 [PoolOp.acquire]).outstanding.length = 1 ∧
    (PoolState.run 1 [PoolOp.acquire]).Acquire = none :=
  ⟨by decide, (acquire_blocks_until_release 1 [PoolOp.acquire]).2.1 (by decide)⟩

lemma acquireSeq_take (k : Nat) : ∀ s : PoolState,
    s.acquireSeq k = s.idle.take k := by
  induction k with
  | zero => intro s; simp [PoolState.acquireSeq]
  | succ n ih =>
    intro s
    cases h : s.idle with
    | nil => simp [PoolState.acquireSeq, PoolState.Acquire, h]
    | cons c rest =>
      simp [PoolState.acquireSeq, PoolState.Acquire, h, ih]

/-- Claim C6: the idle collection is a FIFO queue.  Acquire pops the front
connection, Release appends at the back and emits one notify event, and
the order in which consecutive Acquire calls hand connections out equals
the order in which they sit in the queue. -/
theorem fifo_queue_discipline (s : PoolState) (c : ConnId) (k : Nat) :
    (PoolState.mk (c :: s.idle) s.outstanding).Acquire
        = some (c, ⟨s.idle, s.outstanding ++ [c]⟩) ∧
    (s.Release c).fst.idle = s.idle ++ [c] ∧
    (s.Release c).snd = Notify.one ∧
    s.acquireSeq k = s.idle.take k :=
  ⟨rfl, rfl, rfl, acquireSeq_take k s⟩

/-- The Connection RAII handle (database.hpp, lines 28-72): wraps the
unique_ptr conn_ to one pooled connection (none models a null pointer,
as after the pointer has been moved out).  The C++ class also stores the
back-pointer pool_; here the pool state is passed explicitly to the
destructor.  Copy and move construction and assignment are deleted in the
source (lines 45-49), so the model gives the handle no other operation. -/
structure Connection where
  conn : Option ConnId
deriving Repr, DecidableEq

/-- Acquire as seen by the caller (database.hpp, line 120): the popped
connection is wrapped into a Connection handle bound to the pool. -/
def PoolState.AcquireConnection (s : PoolState) :
    Option (Connection × PoolState) :=
  match s.Acquire with
  | none => none
  | some (c, s2) => some (⟨some c⟩, s2)

/-- The Connection destructor (database.hpp, lines 152-161) with the real
ConnectionPool::Release: when conn_ is non-null it is moved back into the
pool, leaving the handle holding null; when conn_ is already null nothing
happens. -/
def Connection.destruct (h : Connection) (p : PoolState) :
    Connection × PoolState :=
  match h.conn with
  | none => (h, p)
  | some c => (⟨none⟩, (p.Release c).fst)

/-- Claim C4: a handle returned by Acquire wraps a non-null connection;
destroying it appends exactly that connection back to the idle queue and
nulls the handle; destroying the already-destroyed handle releases
nothing; and a handle whose pointer is null never releases.  Together
with the deleted copy and move operations (database.hpp, lines 45-49),
the destructor being the only release path gives exactly one release per
handle lifetime. -/
theorem scoped_handle_releases_exactly_once (p p2 : PoolState)
    (hd : Connection) (hacq : p.AcquireConnection = some (hd, p2)) :
    (∃ c, hd.conn = some c ∧
        (hd.destruct p2).snd.idle = p2.idle ++ [c] ∧
        (hd.destruct p2).fst.conn = none) ∧
    (∀ q : PoolState,
        Connection.destruct (hd.destruct p2).fst q
          = ((hd.destruct p2).fst, q)) ∧
    (∀ h2 : Connection, ∀ q : PoolState, h2.conn = none →
        h2.destruct q = (h2, q)) := by
  refine ⟨?_, ?_, ?_⟩
  · cases p with
    | mk idl out =>
      cases idl with
      | nil => simp [PoolState.AcquireConnection, PoolState.Acquire] at hacq
      | cons c rest =>
        simp [PoolState.AcquireConnection, PoolState.Acquire] at hacq
        obtain ⟨h1, h2⟩ := hacq
        subst h1
        subst h2
        exact ⟨c, rfl, rfl, rfl⟩
  · intro q
    cases hc : hd.conn with
    | none => simp [Connection.destruct, hc]
    | some c => simp [Connection.destruct, hc]
  · intro h2 q hn
    simp [Connection.destruct, hn]

/-- Witness for C4 at a concrete input: acquiring from a fresh pool of
size one yields the handle wrapping connection 0, whose destruction puts
connection 0 back into the (empty) idle queue and nulls the handle. -/
theorem scoped_handle_releases_exactly_once_witness :
    ∃ c, (Connection.mk (some 0)).conn = some c ∧
      ((Connection.mk (some 0)).destruct ⟨[], [0]⟩).snd.idle
          = ([] : List ConnId) ++ [c] ∧
      ((Connection.mk (some 0)).destruct ⟨[], [0]⟩).fst.conn = none :=
  (scoped_handle_releases_exactly_once (PoolState.construct 1) ⟨[], [0]⟩
    ⟨some 0⟩ (by decide)).1

/-- A possible behaviour of releasing back to the pool, as the destructor
sees it: either a normal return with the new pool state, or a thrown
std::exception carrying its message. -/
def ReleaseImpl : Type := PoolState → ConnId → Except String PoolState

/-- Observable outcome of running the Connection destructor: the
moved-from handle, the resulting pool state and the diagnostic lines
written to std::cout.  The destructor is noexcept: its outcome is always
one of these records, never a propagated exception. -/
structure DtorResult where
  handle : Connection
  pool : PoolState
  log : List String
deriving Repr, DecidableEq

/-- The Connection destructor (database.hpp, lines 152-161) parametrised
by the behaviour of Release: conn_ is moved into the Release call; if the
call throws, the exception is caught, its message printed, and the
destructor returns normally with the pool unchanged. -/
def Connection.destructWith (rel : ReleaseImpl) (h : Connection)
    (p : PoolState) : DtorResult :=
  match h.conn with
  | none => ⟨h, p, []⟩
  | some c =>
    match rel p c with
    | Except.ok p2 => ⟨⟨none⟩, p2, []⟩
    | Except.error e => ⟨⟨none⟩, p, [e]⟩

/-- Claim C5: whatever Release does, the destructor returns normally.  A
throwing Release is caught, its message logged, and the exception never
propagates; a succeeding Release logs nothing; and with the real
never-throwing Release the parametrised destructor agrees with
Connection.destruct. -/
theorem dtor_swallows_release_failure (rel : ReleaseImpl) (c : ConnId)
    (p : PoolState) :
    (∀ e, rel p c = Except.error e →
        Connection.destructWith rel ⟨some c⟩ p = ⟨⟨none⟩, p, [e]⟩) ∧
    (∀ p2, rel p c = Except.ok p2 →
        Connection.destructWith rel ⟨some c⟩ p = ⟨⟨none⟩, p2, []⟩) ∧
    (∀ (h : Connection) (q : PoolState),
        Connection.destructWith (fun s d => Except.ok (s.Release d).fst) h q
          = ⟨(h.destruct q).fst, (h.destruct q).snd, []⟩) := by
  refine ⟨?_, ?_, ?_⟩
  · intro e he
    simp [Connection.destructWith, he]
  · intro p2 hp
    simp [Connection.destructWith, hp]
  · intro h q
    cases hc : h.conn with
    | none => simp [Connection.destructWith, Connection.destruct, hc]
    | some d => simp [Connection.destructWith, Connection.destruct, hc]

/-- Witness for C5 at a concrete input: a Release that always throws the
message boom is swallowed; the destructor returns with the pool unchanged
and the message logged. -/
theorem dtor_swallows_release_failure_witness :
    Connection.destructWith (fun _ _ => Except.error "boom") ⟨some 0⟩
        (PoolState.construct 0)
      = ⟨⟨none⟩, PoolState.construct 0, ["boom"]⟩ :=
  (dtor_swallows_release_failure (fun _ _ => Except.error "boom") 0
    (PoolState.construct 0)).1 "boom" rfl

/-- One row of the visits table: the recorded timestamp (the id column is
the position in the list). -/
structure Visit where
  time : Nat
deriving Repr, DecidableEq

/-- The backing store: the rows of the visits table in insertion order. -/
abbrev Store := List Visit

/-- The three SQL statements PostgresDatabase issues (database.hpp, lines
242-269). -/
inductive SqlQuery where
  | insertVisit
  | selectCountVisits
  | createVisitsTable
deriving Repr, DecidableEq

/-- Semantics of the backing store executing one statement (external
relational store, spec section 6): the insert appends a row stamped with
the current time; the count aggregate always returns exactly one row with
one column holding the row count; create-table returns no rows. -/
def execStatement (store : Store) (now : Nat) :
    SqlQuery → Store × List (List Nat)
  | SqlQuery.insertVisit => (store ++ [⟨now⟩], [])
  | SqlQuery.selectCountVisits => (store, [[store.length]])
  | SqlQuery.createVisitsTable => (store, [])

/-- Event trace of one PostgresDatabase operation against the pool and
the connection. -/
inductive DbEv where
  | acquire (c : ConnId)
  | beginTx
  | execStmt (q : SqlQuery)
  | commitTx
  | release (c : ConnId)
deriving Repr, DecidableEq

/-- Whether a trace event is a statement execution. -/
def DbEv.isExec : DbEv → Bool
  | DbEv.execStmt _ => true
  | _ => false

/-- Outcome of PostgresDatabase::ExecuteQuery: the pqxx result rows, the
new store, the pool after the handle returned its connection, and the
event trace. -/
structure QueryOutcome where
  result : List (List Nat)
  store : Store
  pool : PoolState
  trace : List DbEv
deriving Repr, DecidableEq

/-- PostgresDatabase::ExecuteQuery (database.hpp, lines 282-288): acquire
a pooled connection, open a pqxx::work transaction on it, execute the one
statement, commit, and return the result; the Connection handle goes out
of scope and its destructor releases the connection back to the pool.
The result none models the caller still blocked inside Acquire. -/
def ExecuteQuery (p : PoolState) (store : Store) (now : Nat)
    (q : SqlQuery) : Option QueryOutcome :=
  match p.Acquire with
  | none => none
  | some (c, p1) =>
    match execStatement store now q with
    | (store2, res) =>
      some ⟨res, store2, ((Connection.mk (some c)).destruct p1).snd,
        [DbEv.acquire c, DbEv.beginTx, DbEv.execStmt q, DbEv.commitTx,
         DbEv.release c]⟩

/-- PostgresDatabase::MarkVisit (database.hpp, lines 242-244): one
ExecuteQuery with the insert statement, result discarded. -/
def MarkVisit (p : PoolState) (store : Store) (now : Nat) :
    Option (Store × PoolState) :=
  match ExecuteQuery p store now SqlQuery.insertVisit with
  | none => none
  | some o => some (o.store, o.pool)

/-- PostgresDatabase::GetCount (database.hpp, lines 251-254): one
ExecuteQuery with the count statement, then res[0][0].  The outer none
models blocking in Acquire; the inner Option is the fallible row and
column access (none would be a thrown out-of-range error). -/
def GetCount (p : PoolState) (store : Store) : Option (Option Nat) :=
  match ExecuteQuery p store 0 SqlQuery.selectCountVisits with
  | none => none
  | some o => some ((o.result.get? 0).bind (fun r => r.get? 0))

/-- PostgresDatabase::Initialize (database.hpp, lines 264-269): one
ExecuteQuery with the create-table statement. -/
def InitSchema (p : PoolState) (store : Store) :
    Option (Store × PoolState) :=
  match ExecuteQuery p store 0 SqlQuery.createVisitsTable with
  | none => none
  | some o => some (o.store, o.pool)

lemma getCount_spec (p : PoolState) (store : Store) (h : p.idle ≠ []) :
    GetCount p store = some (some store.length) := by
  cases p with
  | mk idl out =>
    cases idl with
    | nil => exact absurd rfl h
    | cons c rest =>
      simp [GetCount, ExecuteQuery, PoolState.Acquire, execStatement,
        Connection.destruct, PoolState.Release]

/-- Claim C3: when the pool has an idle connection, GetCount completes
and returns the number of recorded visits without raising an error; in
particular on a store with zero visit rows it returns 0, because the
count aggregate always produces one row so res[0][0] is in range. -/
theorem getCount_zero_rows_ok (p : PoolState) (store : Store)
    (h : p.idle ≠ []) :
    GetCount p store = some (some store.length) :=
  getCount_spec p store h

/-- Witness for C3 at a concrete input: a fresh pool of size one over the
empty store; GetCount returns 0 and no error. -/
theorem getCount_zero_rows_ok_witness :
    (PoolState.construct 1).idle ≠ [] ∧
    GetCount (PoolState.construct 1) [] = some (some 0) :=
  ⟨by decide, getCount_zero_rows_ok (PoolState.construct 1) [] (by decide)⟩

/-- Claim C7: with an idle connection at the front of the queue, every
data-service statement runs as exactly the trace acquire, begin
transaction, execute the one statement, commit, release, and the pool
holds as many idle connections after the call as before it (no resource
is held after the operation returns).  MarkVisit, GetCount and InitSchema
are each a single such ExecuteQuery call by definition. -/
theorem unit_of_work_pattern (p : PoolState) (store : Store) (now : Nat)
    (q : SqlQuery) (c : ConnId) (rest : List ConnId)
    (h : p.idle = c :: rest) :
    ∃ o : QueryOutcome, ExecuteQuery p store now q = some o ∧
      o.trace = [DbEv.acquire c, DbEv.beginTx, DbEv.execStmt q,
        DbEv.commitTx, DbEv.release c] ∧
      (o.trace.filter DbEv.isExec).length = 1 ∧
      o.pool.idle.length = p.idle.length := by
  cases p with
  | mk idl out =>
    simp only at h
    subst h
    cases q with
    | insertVisit =>
      refine ⟨_, rfl, rfl, rfl, ?_⟩
      simp [Connection.destruct, PoolState.Release]
    | selectCountVisits =>
      refine ⟨_, rfl, rfl, rfl, ?_⟩
      simp [Connection.destruct, PoolState.Release]
    | createVisitsTable =>
      refine ⟨_, rfl, rfl, rfl, ?_⟩
      simp [Connection.destruct, PoolState.Release]

/-- Witness for C7 at a concrete input: the count statement on a fresh
pool of size one. -/
theorem unit_of_work_pattern_witness :
    ∃ o : QueryOutcome,
      ExecuteQuery (PoolState.construct 1) [] 0 SqlQuery.selectCountVisits
          = some o ∧
      o.trace = [DbEv.acquire 0, DbEv.beginTx,
        DbEv.execStmt SqlQuery.selectCountVisits, DbEv.commitTx,
        DbEv.release 0] ∧
      (o.trace.filter DbEv.isExec).length = 1 ∧
      o.pool.idle.length = (PoolState.construct 1).idle.length :=
  unit_of_work_pattern (PoolState.construct 1) [] 0
    SqlQuery.selectCountVisits 0 [] (by decide)

/-- Running a sequence of MarkVisit calls, threading store and pool. -/
def markVisits (p : PoolState) (store : Store) :
    List Nat → Option (Store × PoolState)
  | [] => some (store, p)
  | t :: ts =>
    match MarkVisit p store t with
    | none => none
    | some (store2, p2) => markVisits p2 store2 ts

lemma markVisits_run (times : List Nat) : ∀ (p : PoolState) (store : Store),
    p.idle ≠ [] →
    ∃ store2 p2, markVisits p store times = some (store2, p2) ∧
      store2.length = store.length + times.length ∧ p2.idle ≠ [] := by
  induction times with
  | nil =>
    intro p store h
    exact ⟨store, p, rfl, by simp, h⟩
  | cons t ts ih =>
    intro p store h
    cases p with
    | mk idl out =>
      cases idl with
      | nil => exact absurd rfl h
      | cons c rest =>
        have hmark : MarkVisit ⟨c :: rest, out⟩ store t
            = some (store ++ [⟨t⟩],
                ⟨rest ++ [c], (out ++ [c]).erase c⟩) := by
          simp [MarkVisit, ExecuteQuery, PoolState.Acquire, execStatement,
            Connection.destruct, PoolState.Release]
        obtain ⟨s2, p2, h1, h2, h3⟩ :=
          ih ⟨rest ++ [c], (out ++ [c]).erase c⟩ (store ++ [⟨t⟩]) (by simp)
        refine ⟨s2, p2, ?_, ?_, h3⟩
        · simp [markVisits, hmark, h1]
        · simp at h2
          simp [h2]
          omega

/-- Claim C8: starting from any store with an available connection, a
sequence of k MarkVisit calls all succeed and leave GetCount returning
the old count plus k, so each MarkVisit raises the subsequent GetCount by
exactly one and the count never decreases; in particular one call on the
empty store yields 1 and two calls yield 2. -/
theorem markVisit_increments_getCount (p : PoolState) (store : Store)
    (times : List Nat) (h : p.idle ≠ []) :
    ∃ store2 p2, markVisits p store times = some (store2, p2) ∧
      store2.length = store.length + times.length ∧
      GetCount p2 store2 = some (some (store.length + times.length)) := by
  obtain ⟨s2, p2, h1, h2, h3⟩ := markVisits_run times p store h
  refine ⟨s2, p2, h1, h2, ?_⟩
  rw [getCount_spec p2 s2 h3, h2]

/-- Witness for C8 at a concrete input: two visits marked on the empty
store through a fresh pool of size one give count 2; the one-visit case
is the same statement at a singleton list. -/
theorem markVisit_increments_getCount_witness :
    ((PoolState.construct 1).idle ≠ [] ∧
      ∃ store2 p2,
        markVisits (PoolState.construct 1) [] [5] = some (store2, p2) ∧
        store2.length = 1 ∧ GetCount p2 store2 = some (some 1)) ∧
    ∃ store2 p2,
      markVisits (PoolState.construct 1) [] [5, 6] = some (store2, p2) ∧
      store2.length = 2 ∧ GetCount p2 store2 = some (some 2) :=
  ⟨⟨by decide,
      markVisit_increments_getCount (PoolState.construct 1) [] [5]
        (by decide)⟩,
    markVisit_increments_getCount (PoolState.construct 1) [] [5, 6]
      (by decide)⟩

/-- The HTTP response Session::DoWrite builds around the visit count
(session header, lines 155-168). -/
def formatResponse (count : Nat) : String :=
  let body := "Hello, world! Visits: " ++ toString count
  "HTTP/1.1 200 OK\r\nContent-Type: text/html\r\nContent-Length: "
    ++ toString body.length ++ "\r\nConnection: close\r\n\r\n" ++ body

/-- Observable steps of one Session after its read completes. -/
inductive SessionEv where
  | readCompleted (ok : Bool)
  | getCountCalled
  | writeStarted (response : String)
deriving Repr, DecidableEq

/-- The read-completion callback of Session::DoRead (session header,
lines 126-142) together with Session::DoWrite (lines 151-179): when the
read finished without an error code the session prints the headers and
calls DoWrite, which synchronously calls GetCount on the data service and
starts the asynchronous write of the formatted response; when the read
reported an error the callback body is skipped, so nothing further
happens.  count is the value the data service returns inside DoWrite. -/
def Session.onReadComplete (ok : Bool) (count : Nat) : List SessionEv :=
  if ok then
    [SessionEv.readCompleted true, SessionEv.getCountCalled,
     SessionEv.writeStarted (formatResponse count)]
  else
    [SessionEv.readCompleted false]

/-- Claim C9: within a session the read strictly precedes the write.  The
write (GetCount plus response emission) happens only in the branch where
the read completed without error, right after the read-completion event;
a failed read produces the read-completion event and nothing else, in
particular no write, no retry and no escalation. -/
theorem session_read_precedes_write (ok : Bool) (count : Nat) :
    (ok = false → Session.onReadComplete ok count
        = [SessionEv.readCompleted false]) ∧
    (ok = true → Session.onReadComplete ok count
        = [SessionEv.readCompleted true, SessionEv.getCountCalled,
           SessionEv.writeStarted (formatResponse count)]) ∧
    (∀ r, SessionEv.writeStarted r ∈ Session.onReadComplete ok count →
        ok = true ∧ (Session.onReadComplete ok count).head?
          = some (SessionEv.readCompleted true)) := by
  cases ok with
  | false =>
    refine ⟨fun _ => rfl, fun hc => by simp at hc, ?_⟩
    intro r hr
    simp [Session.onReadComplete] at hr
  | true =>
    refine ⟨fun hc => by simp at hc, fun _ => rfl, ?_⟩
    intro r hr
    exact ⟨rfl, rfl⟩

/-- Witness for C9 at a concrete input: a failed read aborts the session
with no further events, and a successful read with count 3 produces the
read then the write of the formatted response. -/
theorem session_read_precedes_write_witness :
    Session.onReadComplete false 3 = [SessionEv.readCompleted false] ∧
    Session.onReadComplete true 3
      = [SessionEv.readCompleted true, SessionEv.getCountCalled,
         SessionEv.writeStarted (formatResponse 3)] :=
  ⟨(session_read_precedes_write false 3).1 rfl,
   (session_read_precedes_write true 3).2.1 rfl⟩

/-- The configuration entries the PostgresDatabase constructor consumes
(config.hpp): each field is some value when the option is present in the
loaded configuration and none otherwise. -/
structure ConfigState where
  connectionPoolSize : Option Int
  dbConnString : Option String
  dbHost : Option String
  dbUser : Option String
  dbPassword : Option String
  dbName : Option String
  dbPort : Option Int
deriving Repr, DecidableEq

/-- ConfigManager::GetConnectionPoolSize (config.hpp, lines 557-559):
the CONNECTION_POOL_SIZE entry, defaulting to 10. -/
def ConfigState.GetConnectionPoolSize (cfg : ConfigState) : Int :=
  cfg.connectionPoolSize.getD 10

/-- ConfigManager::GetDbHost (config.hpp): defaults to localhost. -/
def ConfigState.GetDbHost (cfg : ConfigState) : String :=
  cfg.dbHost.getD "localhost"

/-- ConfigManager::GetDbUser (config.hpp): defaults to postgres. -/
def ConfigState.GetDbUser (cfg : ConfigState) : String :=
  cfg.dbUser.getD "postgres"

/-- ConfigManager::GetDbPassword (config.hpp): defaults to empty. -/
def ConfigState.GetDbPassword (cfg : ConfigState) : String :=
  cfg.dbPassword.getD ""

/-- ConfigManager::GetDbName (config.hpp): defaults to p2p_chat. -/
def ConfigState.GetDbName (cfg : ConfigState) : String :=
  cfg.dbName.getD "p2p_chat"

/-- ConfigManager::GetDbPort (config.hpp): defaults to 5432. -/
def ConfigState.GetDbPort (cfg : ConfigState) : Int :=
  cfg.dbPort.getD 5432

/-- ConfigManager::GetDbConnString (config.hpp, lines 534-541): the
DB_CONN_STRING entry when present and non-empty, otherwise a PostgreSQL
URL assembled from the individual entries. -/
def ConfigState.GetDbConnString (cfg : ConfigState) : String :=
  let s := cfg.dbConnString.getD ""
  if s = "" then
    "postgresql://" ++ cfg.GetDbUser ++ ":" ++ cfg.GetDbPassword ++ "@"
      ++ cfg.GetDbHost ++ ":" ++ toString cfg.GetDbPort ++ "/"
      ++ cfg.GetDbName
  else s

/-- Conversion of a C++ int to uint64_t: two-complement reduction modulo
2 to the 64. -/
def intToUInt64 (i : Int) : Nat :=
  (i % (2 ^ 64)).toNat

/-- The PostgresDatabase constructor (database.hpp, lines 231-235): the
size and connection-string arguments it passes to the ConnectionPool
member.  numConnections is already a uint64_t; the configured pool size
is an int converted to uint64_t when used. -/
def PostgresDatabase.poolArgs (cfg : ConfigState) (numConnections : Nat) :
    Nat × String :=
  (if 0 < numConnections then numConnections
   else intToUInt64 cfg.GetConnectionPoolSize,
   cfg.GetDbConnString)

/-- Claim C10: a strictly positive numConnections argument is used as the
pool size verbatim; the default argument 0 makes the constructor use the
configured pool size (its configured value when CONNECTION_POOL_SIZE is
set to a representable value, the default 10 when it is absent); and the
connection string always comes from GetDbConnString. -/
theorem postgres_pool_args (cfg : ConfigState) (n : Nat) (s : Int) :
    (0 < n → (PostgresDatabase.poolArgs cfg n).fst = n) ∧
    (n = 0 → cfg.connectionPoolSize = some s → 0 ≤ s → s < 2 ^ 64 →
        (PostgresDatabase.poolArgs cfg n).fst = s.toNat ∧
        cfg.GetConnectionPoolSize = s) ∧
    (n = 0 → cfg.connectionPoolSize = none →
        (PostgresDatabase.poolArgs cfg n).fst = 10) ∧
    (PostgresDatabase.poolArgs cfg n).snd = cfg.GetDbConnString := by
  refine ⟨?_, ?_, ?_, rfl⟩
  · intro hn
    simp [PostgresDatabase.poolArgs, hn]
  · intro h0 hs hge hlt
    subst h0
    have hcfg : cfg.GetConnectionPoolSize = s := by
      simp [ConfigState.GetConnectionPoolSize, hs]
    have h64 : (2 : Int) ^ 64 = 18446744073709551616 := by norm_num
    rw [h64] at hlt
    refine ⟨?_, hcfg⟩
    show intToUInt64 cfg.GetConnectionPoolSize = s.toNat
    rw [hcfg]
    simp only [intToUInt64, h64]
    rw [Int.emod_eq_of_lt hge hlt]
  · intro h0 hn
    subst h0
    have hcfg : cfg.GetConnectionPoolSize = 10 := by
      simp [ConfigState.GetConnectionPoolSize, hn]
    show intToUInt64 cfg.GetConnectionPoolSize = 10
    rw [hcfg]
    decide

/-- Witness for C10 at concrete inputs: with CONNECTION_POOL_SIZE set to
5, argument 0 gives pool size 5; with it absent, argument 0 gives 10;
argument 3 gives 3. -/
theorem postgres_pool_args_witness :
    (PostgresDatabase.poolArgs
        ⟨some 5, none, none, none, none, none, none⟩ 0).fst = Int.toNat 5 ∧
    (PostgresDatabase.poolArgs
        ⟨none, none, none, none, none, none, none⟩ 0).fst = 10 ∧
    (PostgresDatabase.poolArgs
        ⟨some 5, none, none, none, none, none, none⟩ 3).fst = 3 :=
  ⟨((postgres_pool_args ⟨some 5, none, none, none, none, none, none⟩ 0
      5).2.1 rfl rfl (by decide) (by decide)).1,
   (postgres_pool_args ⟨none, none, none, none, none, none, none⟩ 0
      0).2.2.1 rfl rfl,
   (postgres_pool_args ⟨some 5, none, none, none, none, none, none⟩ 3
      0).1 (by decide)⟩

end P2P
